import Mathlib

/-!
Verification of the Veritas map-analyst overlap resolver and of the retry
policy around the streaming analysis call.

The definitions below are a shallow embedding of the TypeScript source:
`SurveyPartition` / `AnalysisResult` from `types.ts`, `processOverlaps` from
the app component, and the retry loop of `streamAnalysis` from the Gemini
service module.  JavaScript arrays become `List`, `Map<string, string[]>`
becomes an insertion-ordered association list, `undefined` becomes `none`,
and a thrown error becomes the `Except.error` branch of the result.
-/

namespace VeritasMap

/-- `SurveyPartition` from `types.ts`: village name, partition id, the ordered
list of survey-number strings, and the optional derived `remarks` field. -/
structure SurveyPartition where
  villageName : String
  partitionId : String
  surveyNumbers : List String
  remarks : Option String := none
deriving Repr, DecidableEq

/-- `AnalysisResult` from `types.ts`: the batch of partitions. -/
structure AnalysisResult where
  partitions : List SurveyPartition
deriving Repr, DecidableEq

/-- The `Map<string, string[]>` built by `processOverlaps`, modelled as an
insertion-ordered association list. -/
abbrev Index := List (String × List String)

/-- One step of the index-building loop of `processOverlaps`:
`if (!m.has(surveyNum)) m.set(surveyNum, []); m.get(surveyNum)?.push(partitionId)`.
A missing key is appended at the end (JS `Map` insertion order); an existing
entry gets the partition id pushed at its back. -/
def indexPush : Index → String → String → Index
  | [], sn, pid => [(sn, [pid])]
  | (k, v) :: rest, sn, pid =>
    if k == sn then (k, v ++ [pid]) :: rest
    else (k, v) :: indexPush rest sn pid

/-- The double `forEach` of `processOverlaps` that fills `surveyToPartitions`:
partitions in input order, and within each partition its survey numbers in
input order. -/
def buildIndex (partitions : List SurveyPartition) : Index :=
  partitions.foldl
    (fun m partition =>
      partition.surveyNumbers.foldl
        (fun m surveyNum => indexPush m surveyNum partition.partitionId) m)
    []

/-- `surveyToPartitions.get(s)`; `none` models JS `undefined`. -/
def indexGet (m : Index) (sn : String) : Option (List String) :=
  (m.find? (fun e => e.1 == sn)).map Prod.snd

/-- `surveyToPartitions.get(s) || []`. -/
def indexGetD (m : Index) (sn : String) : List String :=
  (indexGet m sn).getD []

/-- The `filter` inside `processOverlaps`: keep `s` when
`parts && parts.length > 1` (an absent entry is `undefined`, hence falsy). -/
def overlappingSurveys (idx : Index) (partition : SurveyPartition) : List String :=
  partition.surveyNumbers.filter (fun s =>
    match indexGet idx s with
    | some parts => decide (1 < parts.length)
    | none => false)

/-- One rendered overlap entry: the template string joining `s` with
`(surveyToPartitions.get(s) || []).join(' / ')`. -/
def overlapEntry (idx : Index) (s : String) : String :=
  s ++ " → " ++ String.intercalate " / " (indexGetD idx s)

/-- The list of rendered entries for one partition: the `map` feeding
`join('; ')`. -/
def remarkEntries (idx : Index) (partition : SurveyPartition) : List String :=
  (overlappingSurveys idx partition).map (overlapEntry idx)

/-- The body of the final `map` of `processOverlaps`: filter the partition's
own list against the index, render the entries, and fall back to the sentinel
when the rendered string is empty (`remarks || "No overlaps detected"`). -/
def annotate (idx : Index) (partition : SurveyPartition) : SurveyPartition :=
  let overlapping := overlappingSurveys idx partition
  let remarks :=
    if 0 < overlapping.length then
      String.intercalate "; " (remarkEntries idx partition)
    else ""
  { partition with
    remarks := some (if remarks = "" then "No overlaps detected" else remarks) }

/-- `processOverlaps` from the app component: build the occurrence index, then
map every partition to its annotated copy. -/
def processOverlaps (rawData : AnalysisResult) : List SurveyPartition :=
  let surveyToPartitions := buildIndex rawData.partitions
  rawData.partitions.map (annotate surveyToPartitions)

/-- Specification-level description of the index entry for `sn`: one copy of
each partition id per occurrence of `sn` in that partition, in input order. -/
def idsOf (l : List SurveyPartition) (sn : String) : List String :=
  l.flatMap (fun p => List.replicate (p.surveyNumbers.count sn) p.partitionId)

/-- Total number of occurrences of `sn` across the whole batch. -/
def totalOccurrences (l : List SurveyPartition) (sn : String) : Nat :=
  (l.flatMap (fun p => p.surveyNumbers)).count sn

end VeritasMap

namespace VeritasStream

/-- An error thrown by the streaming call: optional HTTP status and optional
message (`undefined` fields are `none`). -/
structure GenError where
  status : Option Nat
  message : Option String
deriving Repr, DecidableEq

/-- JS `String.prototype.includes`, on the underlying character lists. -/
def listIncludes (sub : List Char) : List Char → Bool
  | [] => sub.isEmpty
  | c :: t => sub.isPrefixOf (c :: t) || listIncludes sub t

/-- JS `s.includes(sub)`. -/
def strIncludes (s sub : String) : Bool :=
  listIncludes sub.data s.data

/-- The rate-limit test of `streamAnalysis`:
`error.status === 429 || (error.message && error.message.includes("429")) ||
(error.message && error.message.includes("Quota exceeded"))`. -/
def isRateLimit (e : GenError) : Bool :=
  e.status == some 429 ||
    (match e.message with
     | some m => strIncludes m "429" || strIncludes m "Quota exceeded"
     | none => false)

/-- Outcome of one call to `ai.models.generateContentStream` together with the
chunk loop: either the stream completes, delivering these chunk texts, or it
throws this error. -/
inductive StreamOutcome where
  | success (chunks : List String)
  | failure (e : GenError)
deriving Repr, DecidableEq

/-- `const MAX_RETRIES = 3`. -/
def MAX_RETRIES : Nat := 3

/-- The closing `throw new Error("Unexpected end of analysis stream.")`. -/
def unexpectedEnd : GenError :=
  { status := none, message := some "Unexpected end of analysis stream." }

/-- The `while (attempt < MAX_RETRIES)` retry loop of `streamAnalysis`,
abstracted over the behaviour `outcomes` of the external call at each value of
the `attempt` counter.  The first argument is recursion fuel; since `attempt`
strictly increases each iteration, `MAX_RETRIES` fuel is enough, and running
out of fuel coincides with the loop exit, i.e. the closing
`throw new Error("Unexpected end of analysis stream.")`.  The result pairs the
list of `wait` delays performed (in ms, `delayTime = attempt * 5000` after the
increment) with either the accumulated text or the thrown error. -/
def streamLoop (outcomes : Nat → StreamOutcome) :
    Nat → Nat → List Nat × Except GenError String
  | 0, _ => ([], .error unexpectedEnd)
  | fuel + 1, attempt =>
    if attempt < MAX_RETRIES then
      match outcomes attempt with
      | .success chunks => ([], .ok (String.join chunks))
      | .failure e =>
        if isRateLimit e then
          if MAX_RETRIES ≤ attempt + 1 then ([], .error e)
          else
            let rest := streamLoop outcomes fuel (attempt + 1)
            ((attempt + 1) * 5000 :: rest.1, rest.2)
        else ([], .error e)
    else ([], .error unexpectedEnd)

/-- `streamAnalysis`: the retry loop started at `attempt = 0`. -/
def streamAnalysisModel (outcomes : Nat → StreamOutcome) :
    List Nat × Except GenError String :=
  streamLoop outcomes MAX_RETRIES 0

end VeritasStream

namespace VeritasMap

/-- Concrete input with a survey number repeated inside a single partition. -/
def selfDupInput : AnalysisResult :=
  ⟨[⟨"V", "P1", ["101", "101"], none⟩]⟩

/-- Concrete input where `101` repeats inside `P1` and `7` is private to `P2`. -/
def selfDupTwoInput : AnalysisResult :=
  ⟨[⟨"V", "P1", ["101", "101"], none⟩, ⟨"V", "P2", ["7"], none⟩]⟩

/-- The concrete four-partition scenario from the design document. -/
def scenarioInput : AnalysisResult :=
  ⟨[⟨"V", "P1", ["12/1", "101"], none⟩,
    ⟨"V", "P2", ["16", "17"], none⟩,
    ⟨"V", "P3", ["12/3", "101"], none⟩,
    ⟨"V", "P4", ["20", "12/3"], none⟩]⟩

/-- Concrete input where `101` repeats inside `P1` and also occurs in `P2`. -/
def crossDupInput : AnalysisResult :=
  ⟨[⟨"V", "P1", ["101", "101"], none⟩, ⟨"V", "P2", ["101"], none⟩]⟩

/-- Concrete input whose survey numbers are globally unique. -/
def uniqueInput : AnalysisResult :=
  ⟨[⟨"V", "P1", ["1", "2"], none⟩, ⟨"V", "P2", ["3"], none⟩]⟩

/-- Concrete input whose first partition has no survey numbers. -/
def emptyNumbersInput : AnalysisResult :=
  ⟨[⟨"V", "P1", [], none⟩, ⟨"V", "P2", ["3"], none⟩]⟩

end VeritasMap

namespace VeritasStream

/-- A rate-limit error: HTTP status 429. -/
def rateLimitErr : GenError := ⟨some 429, none⟩

/-- A non-retriable error: HTTP status 400. -/
def badRequestErr : GenError := ⟨some 400, some "Bad request"⟩

/-- A behaviour with a rate-limit failure on the first attempt and a
non-retriable failure afterwards. -/
def mixedOutcomes : Nat → StreamOutcome :=
  fun n => if n = 0 then .failure rateLimitErr else .failure badRequestErr

end VeritasStream

namespace VeritasMap

theorem indexGetD_nil (sn : String) : indexGetD [] sn = [] := rfl

/-- Looking up the key stored at the head of the association list. -/
theorem indexGetD_cons_self (k : String) (w : List String) (rest : Index) :
    indexGetD ((k, w) :: rest) k = w := by
  unfold indexGetD indexGet
  rw [List.find?_cons_of_pos _ (by simp)]
  rfl

/-- Looking up a key different from the head of the association list. -/
theorem indexGetD_cons_ne (a : String) (w : List String) (rest : Index) (sn : String)
    (h : ¬sn = a) : indexGetD ((a, w) :: rest) sn = indexGetD rest sn := by
  unfold indexGetD indexGet
  rw [List.find?_cons_of_neg _ (by simp [beq_iff_eq]; exact fun hh => h hh.symm)]

/-- Pushing `(k, v)` changes exactly the entry of `k`, appending `v` at its
back (and creating it from `[]` when absent). -/
theorem indexGetD_indexPush (m : Index) (k v sn : String) :
    indexGetD (indexPush m k v) sn =
      if sn = k then indexGetD m sn ++ [v] else indexGetD m sn := by
  induction m with
  | nil =>
    by_cases h : sn = k
    · rw [if_pos h, h]
      show indexGetD [(k, [v])] k = indexGetD [] k ++ [v]
      rw [indexGetD_cons_self, indexGetD_nil, List.nil_append]
    · rw [if_neg h]
      show indexGetD [(k, [v])] sn = indexGetD [] sn
      rw [indexGetD_cons_ne _ _ _ _ h]
  | cons a rest ih =>
    obtain ⟨ak, av⟩ := a
    by_cases hk : ak = k
    · subst hk
      have hpush : indexPush ((ak, av) :: rest) ak v = (ak, av ++ [v]) :: rest := by
        simp [indexPush]
      rw [hpush]
      by_cases hs : sn = ak
      · rw [hs]
        simp [indexGetD_cons_self]
      · rw [if_neg hs, indexGetD_cons_ne _ _ _ _ hs, indexGetD_cons_ne _ _ _ _ hs]
    · have hpush : indexPush ((ak, av) :: rest) k v = (ak, av) :: indexPush rest k v := by
        simp [indexPush, beq_iff_eq, hk]
      rw [hpush]
      by_cases hs : sn = ak
      · rw [hs]
        simp [indexGetD_cons_self, hk]
      · rw [indexGetD_cons_ne _ _ _ _ hs, ih, indexGetD_cons_ne _ _ _ _ hs]


/-- Folding one partition's survey numbers into the index appends one copy of
the partition id per occurrence to the entry of each number. -/
theorem indexGetD_foldl_numbers (ns : List String) (pid : String) (m : Index)
    (sn : String) :
    indexGetD (ns.foldl (fun m s => indexPush m s pid) m) sn =
      indexGetD m sn ++ List.replicate (ns.count sn) pid := by
  induction ns generalizing m with
  | nil => simp
  | cons n t ih =>
    rw [List.foldl_cons, ih, indexGetD_indexPush]
    by_cases h : sn = n
    · rw [if_pos h, List.count_cons, if_pos (by simp [h])]
      simp only [List.append_assoc]
      rfl
    · rw [if_neg h, List.count_cons,
        if_neg (by simp [beq_iff_eq]; exact fun hh => h hh.symm)]
      simp


/-- Folding a batch of partitions into the index appends `idsOf` to every
entry. -/
theorem indexGetD_foldl_partitions (l : List SurveyPartition) (m : Index)
    (sn : String) :
    indexGetD
        (l.foldl
          (fun m partition =>
            partition.surveyNumbers.foldl
              (fun m surveyNum => indexPush m surveyNum partition.partitionId) m)
          m)
        sn =
      indexGetD m sn ++ idsOf l sn := by
  induction l generalizing m with
  | nil => simp [idsOf]
  | cons p t ih =>
    rw [List.foldl_cons, ih, indexGetD_foldl_numbers]
    simp [idsOf, List.append_assoc]

/-- The index entry of `sn` is exactly `idsOf`: one copy of each partition id
per occurrence of `sn` in that partition, in input order, with no
deduplication. -/
theorem indexGetD_buildIndex (l : List SurveyPartition) (sn : String) :
    indexGetD (buildIndex l) sn = idsOf l sn := by
  rw [buildIndex, indexGetD_foldl_partitions, indexGetD_nil, List.nil_append]

/-- The index entry for `sn` has one element per occurrence of `sn` in the
whole batch. -/
theorem length_idsOf (l : List SurveyPartition) (sn : String) :
    (idsOf l sn).length = totalOccurrences l sn := by
  induction l with
  | nil => rfl
  | cons p t ih =>
    simp only [idsOf, totalOccurrences, List.flatMap_cons, List.length_append,
      List.length_replicate, List.count_append] at *
    omega

/-- The filter predicate of `processOverlaps`, restated through `indexGetD`. -/
theorem overlappingSurveys_eq_filter (idx : Index) (partition : SurveyPartition) :
    overlappingSurveys idx partition =
      partition.surveyNumbers.filter (fun s => decide (1 < (indexGetD idx s).length)) := by
  unfold overlappingSurveys
  congr 1
  funext s
  cases h : indexGet idx s <;> simp [indexGetD, h]

/-- Over the index built from the batch, a survey number is kept exactly when
it has at least two occurrences in the whole batch. -/
theorem overlappingSurveys_buildIndex (l : List SurveyPartition)
    (partition : SurveyPartition) :
    overlappingSurveys (buildIndex l) partition =
      partition.surveyNumbers.filter (fun s => decide (2 ≤ totalOccurrences l s)) := by
  rw [overlappingSurveys_eq_filter]
  congr 1
  funext s
  rw [indexGetD_buildIndex, length_idsOf]
  rfl

theorem length_processOverlaps (l : List SurveyPartition) :
    (processOverlaps ⟨l⟩).length = l.length := by
  simp [processOverlaps]


/-- The accumulator of `String.intercalate.go` survives as a prefix of the
character data of the result. -/
theorem intercalate_go_data (sep : String) (xs : List String) (acc : String) :
    ∃ t, (String.intercalate.go acc sep xs).data = acc.data ++ t := by
  induction xs generalizing acc with
  | nil => exact ⟨[], by simp [String.intercalate.go]⟩
  | cons b bs ih =>
    obtain ⟨t, ht⟩ := ih (acc ++ sep ++ b)
    exact ⟨sep.data ++ b.data ++ t, by
      simp [String.intercalate.go, ht, List.append_assoc]⟩

/-- Joining a nonempty list whose head has nonempty data yields a nonempty
string. -/
theorem intercalate_cons_ne_empty (sep : String) (a : String) (xs : List String)
    (ha : a.data ≠ []) : String.intercalate sep (a :: xs) ≠ "" := by
  intro hcontra
  obtain ⟨t, ht⟩ := intercalate_go_data sep xs a
  have : (String.intercalate sep (a :: xs)).data = a.data ++ t := ht
  rw [hcontra] at this
  exact ha (List.append_eq_nil.mp this.symm).1

/-- A rendered overlap entry always has nonempty data: it contains the arrow
separator. -/
theorem overlapEntry_data_ne (idx : Index) (s : String) :
    (overlapEntry idx s).data ≠ [] := by
  unfold overlapEntry
  simp

/-- When the filter keeps nothing, `annotate` emits the sentinel. -/
theorem annotate_remarks_of_eq_nil (idx : Index) (partition : SurveyPartition)
    (h : overlappingSurveys idx partition = []) :
    (annotate idx partition).remarks = some "No overlaps detected" := by
  simp [annotate, h]

/-- When the filter keeps something, `annotate` emits the joined entries. -/
theorem annotate_remarks_of_ne_nil (idx : Index) (partition : SurveyPartition)
    (h : overlappingSurveys idx partition ≠ []) :
    (annotate idx partition).remarks =
      some (String.intercalate "; " (remarkEntries idx partition)) := by
  obtain ⟨s, rest, hcons⟩ := List.exists_cons_of_ne_nil h
  have hlen : 0 < (overlappingSurveys idx partition).length := by
    rw [hcons]; exact Nat.succ_pos _
  have hne : String.intercalate "; " (remarkEntries idx partition) ≠ "" := by
    rw [remarkEntries, hcons, List.map_cons]
    exact intercalate_cons_ne_empty _ _ _ (overlapEntry_data_ne idx s)
  simp [annotate, hlen, hne]

/-- `annotate` only touches the `remarks` field. -/
theorem annotate_fields (idx : Index) (partition : SurveyPartition) :
    (annotate idx partition).villageName = partition.villageName ∧
    (annotate idx partition).partitionId = partition.partitionId ∧
    (annotate idx partition).surveyNumbers = partition.surveyNumbers ∧
    (annotate idx partition).remarks.isSome = true := by
  refine ⟨rfl, rfl, rfl, rfl⟩


/-- Position `i` of the output is the annotated copy of position `i` of the
input. -/
theorem get_processOverlaps (l : List SurveyPartition) (i : Nat) (h : i < l.length)
    (h2 : i < (processOverlaps ⟨l⟩).length) :
    (processOverlaps ⟨l⟩).get ⟨i, h2⟩ = annotate (buildIndex l) (l.get ⟨i, h⟩) := by
  show (l.map (annotate (buildIndex l))).get _ = _
  simp [List.get_eq_getElem, List.getElem_map]

/-- A member partition contributes at most the batch total of occurrences. -/
theorem count_le_totalOccurrences (l : List SurveyPartition) (p : SurveyPartition)
    (hp : p ∈ l) (sn : String) :
    p.surveyNumbers.count sn ≤ totalOccurrences l sn := by
  induction l with
  | nil => cases hp
  | cons q t ih =>
    simp only [totalOccurrences, List.flatMap_cons, List.count_append] at *
    rcases List.mem_cons.mp hp with hq | ht
    · rw [hq]
      exact Nat.le_add_right _ _
    · exact Nat.le_trans (ih ht) (Nat.le_add_left _ _)


/-- C10: when building its survey-number index, `processOverlaps` appends a
partition's id once per occurrence of the number within that partition, with
no deduplication, so a number occurring `k` times in one partition contributes
`k` copies of that id to the entry, and the overlap test
(`parts.length > 1`) counts occurrences rather than distinct partition ids. -/
theorem index_appends_per_occurrence (l : List SurveyPartition) (sn : String) :
    indexGetD (buildIndex l) sn =
      l.flatMap (fun p => List.replicate (p.surveyNumbers.count sn) p.partitionId) ∧
    ∀ partition : SurveyPartition,
      (sn ∈ overlappingSurveys (buildIndex l) partition ↔
        sn ∈ partition.surveyNumbers ∧
          2 ≤ (l.flatMap (fun p => p.surveyNumbers)).count sn) := by
  constructor
  · rw [indexGetD_buildIndex]
    rfl
  · intro partition
    rw [overlappingSurveys_buildIndex]
    simp [List.mem_filter, totalOccurrences]

/-- C1 counterexample: with a single partition `P1` whose list repeats `101`,
no survey number appears in any other partition, so the claim requires
`"No overlaps detected"`; the code instead flags `101` and lists `P1` twice
(the index is not deduplicated by first occurrence). -/
theorem index_dedup_claim_false :
    (processOverlaps selfDupInput).map SurveyPartition.remarks =
      [some "101 → P1 / P1; 101 → P1 / P1"] ∧
    (processOverlaps selfDupInput).map SurveyPartition.remarks ≠
      [some "No overlaps detected"] := by
  exact ⟨by decide, by decide⟩

/-- C1 (amended): each output partition's remarks are as the claim states,
except that the index is NOT deduplicated: the entry for a number holds one
partition id per occurrence (in scan order), and a number is flagged when it
has at least two occurrences in the whole batch (not necessarily in two
distinct partitions). -/
theorem processOverlaps_format_amended (l : List SurveyPartition) :
    processOverlaps ⟨l⟩ = l.map (fun partition =>
      let overlapping := partition.surveyNumbers.filter
        (fun s => decide (2 ≤ totalOccurrences l s))
      let remarks :=
        if 0 < overlapping.length then
          String.intercalate "; " (overlapping.map (fun s =>
            s ++ " → " ++ String.intercalate " / " (idsOf l s)))
        else ""
      { partition with
        remarks := some (if remarks = "" then "No overlaps detected" else remarks) }) := by
  have hentry : overlapEntry (buildIndex l) =
      fun s => s ++ " → " ++ String.intercalate " / " (idsOf l s) := by
    funext s
    rw [overlapEntry, indexGetD_buildIndex]
  show l.map (annotate (buildIndex l)) = _
  apply List.map_congr_left
  intro partition _
  simp only [annotate, remarkEntries, hentry, overlappingSurveys_buildIndex]

/-- C2 counterexample: on the four-partition scenario the code emits `P3`'s
entries in the order of `P3.surveyNumbers` (`12/3` before `101`), not in the
order the claim states. -/
theorem scenario_claim_false :
    (processOverlaps scenarioInput).map SurveyPartition.remarks ≠
      [some "101 → P1 / P3", some "No overlaps detected",
        some "101 → P1 / P3; 12/3 → P3 / P4", some "12/3 → P3 / P4"] := by
  decide

/-- C2 (amended): the scenario outputs are as claimed except that `P3`'s
remarks list the `12/3` entry first: `"12/3 → P3 / P4; 101 → P1 / P3"`. -/
theorem scenario_remarks :
    (processOverlaps scenarioInput).map SurveyPartition.remarks =
      [some "101 → P1 / P3", some "No overlaps detected",
        some "12/3 → P3 / P4; 101 → P1 / P3", some "12/3 → P3 / P4"] := by
  decide

/-- C3: the output has the same length and order as the input, each position
keeps its `villageName`, `partitionId` and `surveyNumbers`, and only `remarks`
is added or overwritten. -/
theorem frame_preservation (l : List SurveyPartition) :
    (processOverlaps ⟨l⟩).length = l.length ∧
    ∀ i : Nat, ∀ h : i < l.length,
      ((processOverlaps ⟨l⟩).get ⟨i, by rw [length_processOverlaps]; exact h⟩).villageName =
          (l.get ⟨i, h⟩).villageName ∧
      ((processOverlaps ⟨l⟩).get ⟨i, by rw [length_processOverlaps]; exact h⟩).partitionId =
          (l.get ⟨i, h⟩).partitionId ∧
      ((processOverlaps ⟨l⟩).get ⟨i, by rw [length_processOverlaps]; exact h⟩).surveyNumbers =
          (l.get ⟨i, h⟩).surveyNumbers ∧
      ((processOverlaps ⟨l⟩).get ⟨i, by rw [length_processOverlaps]; exact h⟩).remarks.isSome
          = true := by
  refine ⟨length_processOverlaps l, fun i h => ?_⟩
  rw [get_processOverlaps l i h]
  exact annotate_fields _ _

/-- Witness for C3 at a concrete input and index. -/
theorem frame_preservation_witness :
    0 < (selfDupInput.partitions).length ∧
    ((processOverlaps ⟨selfDupInput.partitions⟩).get
        ⟨0, by rw [length_processOverlaps]; decide⟩).villageName =
      ((selfDupInput.partitions).get ⟨0, by decide⟩).villageName :=
  ⟨by decide, ((frame_preservation selfDupInput.partitions).2 0 (by decide)).1⟩


/-- C4 counterexample: `101` occurs twice inside `P1` and in no other
partition; the claim says it must not be flagged, but the code flags it
because the overlap test counts occurrences, not distinct partition ids. -/
theorem distinct_ids_claim_false :
    (processOverlaps selfDupTwoInput).map SurveyPartition.remarks =
      [some "101 → P1 / P1; 101 → P1 / P1", some "No overlaps detected"] ∧
    ((processOverlaps selfDupTwoInput).map SurveyPartition.remarks).head? ≠
      some (some "No overlaps detected") := by
  exact ⟨by decide, by decide⟩

/-- C4 (amended): a survey number is flagged exactly when it has at least two
occurrences in the whole batch (repeats inside a single partition count), so a
partition all of whose numbers occur at most once in the entire input gets
remarks `"No overlaps detected"`. -/
theorem no_flag_when_unique_amended (l : List SurveyPartition) (i : Nat)
    (h : i < l.length)
    (hall : ∀ sn ∈ (l.get ⟨i, h⟩).surveyNumbers, totalOccurrences l sn ≤ 1) :
    ((processOverlaps ⟨l⟩).get ⟨i, by rw [length_processOverlaps]; exact h⟩).remarks =
      some "No overlaps detected" := by
  rw [get_processOverlaps l i h]
  apply annotate_remarks_of_eq_nil
  rw [overlappingSurveys_buildIndex, List.filter_eq_nil_iff]
  intro s hs
  have := hall s hs
  simp only [decide_eq_true_eq]
  omega

/-- Witness for C4 (amended). -/
theorem no_flag_when_unique_amended_witness :
    (0 < uniqueInput.partitions.length ∧
      ∀ sn ∈ (uniqueInput.partitions.get ⟨0, by decide⟩).surveyNumbers,
        totalOccurrences uniqueInput.partitions sn ≤ 1) ∧
    ((processOverlaps ⟨uniqueInput.partitions⟩).get
        ⟨0, by rw [length_processOverlaps]; decide⟩).remarks =
      some "No overlaps detected" :=
  ⟨⟨by decide, by decide⟩,
    no_flag_when_unique_amended uniqueInput.partitions 0 (by decide) (by decide)⟩

/-- C5: a survey number occurring twice in one partition's list and also in
another partition yields its overlap entry twice in that partition's rendered
remarks, at the positions of the original occurrences (the filter keeps
duplicates and order). -/
theorem duplicate_listed_twice (l : List SurveyPartition) (i : Nat)
    (h : i < l.length) (sn : String)
    (h2 : 2 ≤ (l.get ⟨i, h⟩).surveyNumbers.count sn)
    (_hother : ∃ j : Fin l.length, j.val ≠ i ∧ sn ∈ (l.get j).surveyNumbers) :
    ((processOverlaps ⟨l⟩).get ⟨i, by rw [length_processOverlaps]; exact h⟩).remarks =
      some (String.intercalate "; " (remarkEntries (buildIndex l) (l.get ⟨i, h⟩))) ∧
    2 ≤ (remarkEntries (buildIndex l) (l.get ⟨i, h⟩)).count
        (overlapEntry (buildIndex l) sn) := by
  set p := l.get ⟨i, h⟩ with hp
  have hmem : p ∈ l := List.get_mem l i h
  have htot : 2 ≤ totalOccurrences l sn :=
    Nat.le_trans h2 (count_le_totalOccurrences l p hmem sn)
  have hcount : (overlappingSurveys (buildIndex l) p).count sn =
      p.surveyNumbers.count sn := by
    rw [overlappingSurveys_buildIndex]
    exact List.count_filter (by simp [htot])
  have hker : 2 ≤ (overlappingSurveys (buildIndex l) p).count sn := by
    rw [hcount]; exact h2
  constructor
  · rw [get_processOverlaps l i h]
    apply annotate_remarks_of_ne_nil
    intro hnil
    rw [hnil] at hker
    simp at hker
  · calc 2 ≤ (overlappingSurveys (buildIndex l) p).count sn := hker
      _ = (overlappingSurveys (buildIndex l) p).countP (· == sn) := rfl
      _ ≤ (overlappingSurveys (buildIndex l) p).countP
            (fun x => overlapEntry (buildIndex l) x == overlapEntry (buildIndex l) sn) := by
          apply List.countP_mono_left
          intro x _ hx
          have : x = sn := by simpa using hx
          rw [this]
          simp
      _ = (remarkEntries (buildIndex l) p).count (overlapEntry (buildIndex l) sn) := by
          simp only [remarkEntries, List.count, List.countP_map]
          rfl


/-- Witness for C5 on `P1 = {101, 101}`, `P2 = {101}`. -/
theorem duplicate_listed_twice_witness :
    (2 ≤ ((crossDupInput.partitions).get ⟨0, by decide⟩).surveyNumbers.count "101") ∧
    2 ≤ (remarkEntries (buildIndex crossDupInput.partitions)
          ((crossDupInput.partitions).get ⟨0, by decide⟩)).count
        (overlapEntry (buildIndex crossDupInput.partitions) "101") :=
  ⟨by decide,
    (duplicate_listed_twice crossDupInput.partitions 0 (by decide) "101" (by decide)
      (by decide)).2⟩

/-- C6: if every survey number is globally unique (the concatenation of all
`surveyNumbers` lists has no duplicate), every output remark is the
sentinel. -/
theorem unique_batch_no_overlaps (l : List SurveyPartition)
    (h : (l.flatMap (fun p => p.surveyNumbers)).Nodup) :
    ∀ q ∈ processOverlaps ⟨l⟩, q.remarks = some "No overlaps detected" := by
  intro q hq
  have hq2 : q ∈ l.map (annotate (buildIndex l)) := hq
  obtain ⟨p, hp, rfl⟩ := List.mem_map.mp hq2
  apply annotate_remarks_of_eq_nil
  rw [overlappingSurveys_buildIndex, List.filter_eq_nil_iff]
  intro s hs
  have hle := List.nodup_iff_count_le_one.mp h s
  simp only [decide_eq_true_eq, totalOccurrences]
  omega

/-- Witness for C6. -/
theorem unique_batch_no_overlaps_witness :
    (uniqueInput.partitions.flatMap (fun p => p.surveyNumbers)).Nodup ∧
    ∀ q ∈ processOverlaps ⟨uniqueInput.partitions⟩,
      q.remarks = some "No overlaps detected" :=
  ⟨by decide, unique_batch_no_overlaps uniqueInput.partitions (by decide)⟩

/-- Annotation reads only `partitionId` and `surveyNumbers`, which it
preserves, so re-indexing annotated partitions rebuilds the same index. -/
theorem buildIndex_map_annotate (idx : Index) (l : List SurveyPartition) :
    buildIndex (l.map (annotate idx)) = buildIndex l := by
  unfold buildIndex
  rw [List.foldl_map]
  rfl

/-- Annotating twice with the same index overwrites `remarks` with the same
value. -/
theorem annotate_annotate (idx : Index) (p : SurveyPartition) :
    annotate idx (annotate idx p) = annotate idx p := by
  cases p
  rfl

/-- C7: `processOverlaps` is idempotent: feeding its own output back in
(the `remarks` field is never read) reproduces the output, remarks
included. -/
theorem processOverlaps_idempotent (rawData : AnalysisResult) :
    processOverlaps ⟨processOverlaps rawData⟩ = processOverlaps rawData := by
  obtain ⟨l⟩ := rawData
  show (l.map (annotate (buildIndex l))).map
      (annotate (buildIndex (l.map (annotate (buildIndex l))))) =
    l.map (annotate (buildIndex l))
  rw [buildIndex_map_annotate, List.map_map]
  apply List.map_congr_left
  intro p _
  exact annotate_annotate _ p

/-- C8: the resolver is total over well-typed input — every output partition
carries a remark — and a partition whose `surveyNumbers` list is empty gets
the sentinel. -/
theorem total_and_empty_sentinel (l : List SurveyPartition) :
    (∀ q ∈ processOverlaps ⟨l⟩, q.remarks.isSome = true) ∧
    ∀ i : Nat, ∀ h : i < l.length, (l.get ⟨i, h⟩).surveyNumbers = [] →
      ((processOverlaps ⟨l⟩).get ⟨i, by rw [length_processOverlaps]; exact h⟩).remarks =
        some "No overlaps detected" := by
  constructor
  · intro q hq
    have hq2 : q ∈ l.map (annotate (buildIndex l)) := hq
    obtain ⟨p, hp, rfl⟩ := List.mem_map.mp hq2
    exact (annotate_fields _ _).2.2.2
  · intro i h he
    rw [get_processOverlaps l i h]
    apply annotate_remarks_of_eq_nil
    rw [overlappingSurveys_eq_filter, he]
    rfl

/-- Witness for C8 on a batch whose first partition has no survey numbers. -/
theorem total_and_empty_sentinel_witness :
    ((emptyNumbersInput.partitions.get ⟨0, by decide⟩).surveyNumbers = []) ∧
    ((processOverlaps ⟨emptyNumbersInput.partitions⟩).get
        ⟨0, by rw [length_processOverlaps]; decide⟩).remarks =
      some "No overlaps detected" :=
  ⟨by decide,
    (total_and_empty_sentinel emptyNumbersInput.partitions).2 0 (by decide) (by decide)⟩

end VeritasMap

namespace VeritasStream

/-- A successful call returns the joined chunks and performs no wait. -/
theorem streamLoop_success (o : Nat → StreamOutcome) (fuel attempt : Nat)
    (chunks : List String) (hf : 0 < fuel) (h : attempt < MAX_RETRIES)
    (ho : o attempt = .success chunks) :
    streamLoop o fuel attempt = ([], .ok (String.join chunks)) := by
  obtain ⟨f, rfl⟩ : ∃ f, fuel = f + 1 := ⟨fuel - 1, by omega⟩
  simp [streamLoop, h, ho]

/-- A non-rate-limit failure is rethrown immediately, with no wait. -/
theorem streamLoop_failure_stop (o : Nat → StreamOutcome) (fuel attempt : Nat)
    (e : GenError) (hf : 0 < fuel) (h : attempt < MAX_RETRIES)
    (ho : o attempt = .failure e) (hr : isRateLimit e = false) :
    streamLoop o fuel attempt = ([], .error e) := by
  obtain ⟨f, rfl⟩ : ∃ f, fuel = f + 1 := ⟨fuel - 1, by omega⟩
  simp [streamLoop, h, ho, hr]

/-- A rate-limit failure on the final allowed attempt is rethrown without any
further wait. -/
theorem streamLoop_failure_last (o : Nat → StreamOutcome) (fuel attempt : Nat)
    (e : GenError) (hf : 0 < fuel) (h : attempt < MAX_RETRIES)
    (h2 : MAX_RETRIES ≤ attempt + 1)
    (ho : o attempt = .failure e) (hr : isRateLimit e = true) :
    streamLoop o fuel attempt = ([], .error e) := by
  obtain ⟨f, rfl⟩ : ∃ f, fuel = f + 1 := ⟨fuel - 1, by omega⟩
  simp [streamLoop, h, ho, hr, h2]

/-- A rate-limit failure with attempts to spare waits `(attempt + 1) * 5000`
ms and loops. -/
theorem streamLoop_failure_retry (o : Nat → StreamOutcome) (fuel attempt : Nat)
    (e : GenError) (hf : 0 < fuel) (h2 : attempt + 1 < MAX_RETRIES)
    (ho : o attempt = .failure e) (hr : isRateLimit e = true) :
    streamLoop o fuel attempt =
      ((attempt + 1) * 5000 :: (streamLoop o (fuel - 1) (attempt + 1)).1,
        (streamLoop o (fuel - 1) (attempt + 1)).2) := by
  obtain ⟨f, rfl⟩ : ∃ f, fuel = f + 1 := ⟨fuel - 1, by omega⟩
  simp [streamLoop, Nat.lt_of_succ_lt h2, ho, hr, Nat.not_le.mpr h2]

/-- C9 counterexample: with every attempt failing rate-limited, the loop
performs exactly two waits, 5 s then 10 s, and rethrows the error; the claimed
third 15 s delay never happens, because after the third failed attempt the
error is rethrown before any wait. -/
theorem retry_delays_claim_false :
    (streamAnalysisModel (fun _ => .failure rateLimitErr)).1 = [5000, 10000] ∧
    15000 ∉ (streamAnalysisModel (fun _ => .failure rateLimitErr)).1 ∧
    (streamAnalysisModel (fun _ => .failure rateLimitErr)).2 =
      Except.error rateLimitErr := by
  exact ⟨by decide, by decide, rfl⟩

/-- C9 (amended): the call is retried only on rate-limit/quota signals
(status 429 or a message containing "429" or "Quota exceeded"), at most 3
attempts are made (the result only depends on the first three outcomes), and
the waits performed are an initial segment of 5 s then 10 s — the 15 s delay
of the linear formula is never reached.  At any attempt `k` the loop actually
reaches (i.e. after `k` rate-limited failures, with waits
`5000, ..., k * 5000` already performed): a non-rate-limit failure is rethrown
immediately with no further wait or retry, a success returns the joined chunks
with no further wait, and a rate-limit failure on the last allowed attempt is
rethrown with no further wait. -/
theorem retry_policy_amended (outcomes : Nat → StreamOutcome) :
    (∃ t, (streamAnalysisModel outcomes).1 ++ t = [5000, 10000]) ∧
    (∀ k : Nat, k < MAX_RETRIES →
      (∀ j, j < k → ∃ ej, outcomes j = .failure ej ∧ isRateLimit ej = true) →
      ∀ e, outcomes k = .failure e → isRateLimit e = false →
        streamAnalysisModel outcomes =
          ((List.range k).map (fun j => (j + 1) * 5000), .error e)) ∧
    (∀ k : Nat, k < MAX_RETRIES →
      (∀ j, j < k → ∃ ej, outcomes j = .failure ej ∧ isRateLimit ej = true) →
      ∀ chunks, outcomes k = .success chunks →
        streamAnalysisModel outcomes =
          ((List.range k).map (fun j => (j + 1) * 5000), .ok (String.join chunks))) ∧
    (∀ e,
      (∀ j, j < MAX_RETRIES - 1 → ∃ ej, outcomes j = .failure ej ∧ isRateLimit ej = true) →
      outcomes (MAX_RETRIES - 1) = .failure e → isRateLimit e = true →
        streamAnalysisModel outcomes =
          ((List.range (MAX_RETRIES - 1)).map (fun j => (j + 1) * 5000), .error e)) ∧
    (∀ outcomes2 : Nat → StreamOutcome,
      (∀ i, i < MAX_RETRIES → outcomes i = outcomes2 i) →
      streamAnalysisModel outcomes = streamAnalysisModel outcomes2) := by
  refine ⟨?_, ?_, ?_, ?_, ?_⟩
  · rcases h0 : outcomes 0 with chunks0 | e0
    · refine ⟨[5000, 10000], ?_⟩
      unfold streamAnalysisModel
      rw [streamLoop_success outcomes MAX_RETRIES 0 chunks0 (by decide) (by decide) h0]
      rfl
    · cases hr0 : isRateLimit e0
      · refine ⟨[5000, 10000], ?_⟩
        unfold streamAnalysisModel
        rw [streamLoop_failure_stop outcomes MAX_RETRIES 0 e0 (by decide) (by decide) h0 hr0]
        rfl
      · have hstep0 := streamLoop_failure_retry outcomes MAX_RETRIES 0 e0
          (by decide) (by decide) h0 hr0
        rcases h1 : outcomes 1 with chunks1 | e1
        · refine ⟨[10000], ?_⟩
          unfold streamAnalysisModel
          rw [hstep0,
            streamLoop_success outcomes (MAX_RETRIES - 1) 1 chunks1 (by decide) (by decide) h1]
          rfl
        · cases hr1 : isRateLimit e1
          · refine ⟨[10000], ?_⟩
            unfold streamAnalysisModel
            rw [hstep0,
              streamLoop_failure_stop outcomes (MAX_RETRIES - 1) 1 e1
                (by decide) (by decide) h1 hr1]
            rfl
          · have hstep1 := streamLoop_failure_retry outcomes (MAX_RETRIES - 1) 1 e1
              (by decide) (by decide) h1 hr1
            rcases h2 : outcomes 2 with chunks2 | e2
            · refine ⟨[], ?_⟩
              unfold streamAnalysisModel
              rw [hstep0, hstep1,
                streamLoop_success outcomes (MAX_RETRIES - 1 - 1) 2 chunks2
                  (by decide) (by decide) h2]
              rfl
            · cases hr2 : isRateLimit e2
              · refine ⟨[], ?_⟩
                unfold streamAnalysisModel
                rw [hstep0, hstep1,
                  streamLoop_failure_stop outcomes (MAX_RETRIES - 1 - 1) 2 e2
                    (by decide) (by decide) h2 hr2]
                rfl
              · refine ⟨[], ?_⟩
                unfold streamAnalysisModel
                rw [hstep0, hstep1,
                  streamLoop_failure_last outcomes (MAX_RETRIES - 1 - 1) 2 e2
                    (by decide) (by decide) (by decide) h2 hr2]
                rfl
  · intro k hk hreach e hke hre
    obtain rfl | rfl | rfl : k = 0 ∨ k = 1 ∨ k = 2 := by
      have hk3 : k < 3 := hk
      omega
    · unfold streamAnalysisModel
      rw [streamLoop_failure_stop outcomes MAX_RETRIES 0 e (by decide) (by decide) hke hre]
      rfl
    · obtain ⟨e0, he0, hr0⟩ := hreach 0 (by decide)
      unfold streamAnalysisModel
      rw [streamLoop_failure_retry outcomes MAX_RETRIES 0 e0 (by decide) (by decide) he0 hr0,
        streamLoop_failure_stop outcomes (MAX_RETRIES - 1) 1 e (by decide) (by decide) hke hre]
      rfl
    · obtain ⟨e0, he0, hr0⟩ := hreach 0 (by decide)
      obtain ⟨e1, he1, hr1⟩ := hreach 1 (by decide)
      unfold streamAnalysisModel
      rw [streamLoop_failure_retry outcomes MAX_RETRIES 0 e0 (by decide) (by decide) he0 hr0,
        streamLoop_failure_retry outcomes (MAX_RETRIES - 1) 1 e1
          (by decide) (by decide) he1 hr1,
        streamLoop_failure_stop outcomes (MAX_RETRIES - 1 - 1) 2 e
          (by decide) (by decide) hke hre]
      rfl
  · intro k hk hreach chunks hke
    obtain rfl | rfl | rfl : k = 0 ∨ k = 1 ∨ k = 2 := by
      have hk3 : k < 3 := hk
      omega
    · unfold streamAnalysisModel
      rw [streamLoop_success outcomes MAX_RETRIES 0 chunks (by decide) (by decide) hke]
      rfl
    · obtain ⟨e0, he0, hr0⟩ := hreach 0 (by decide)
      unfold streamAnalysisModel
      rw [streamLoop_failure_retry outcomes MAX_RETRIES 0 e0 (by decide) (by decide) he0 hr0,
        streamLoop_success outcomes (MAX_RETRIES - 1) 1 chunks (by decide) (by decide) hke]
      rfl
    · obtain ⟨e0, he0, hr0⟩ := hreach 0 (by decide)
      obtain ⟨e1, he1, hr1⟩ := hreach 1 (by decide)
      unfold streamAnalysisModel
      rw [streamLoop_failure_retry outcomes MAX_RETRIES 0 e0 (by decide) (by decide) he0 hr0,
        streamLoop_failure_retry outcomes (MAX_RETRIES - 1) 1 e1
          (by decide) (by decide) he1 hr1,
        streamLoop_success outcomes (MAX_RETRIES - 1 - 1) 2 chunks
          (by decide) (by decide) hke]
      rfl
  · intro e hreach hke hre
    obtain ⟨e0, he0, hr0⟩ := hreach 0 (by decide)
    obtain ⟨e1, he1, hr1⟩ := hreach 1 (by decide)
    unfold streamAnalysisModel
    rw [streamLoop_failure_retry outcomes MAX_RETRIES 0 e0 (by decide) (by decide) he0 hr0,
      streamLoop_failure_retry outcomes (MAX_RETRIES - 1) 1 e1
        (by decide) (by decide) he1 hr1,
      streamLoop_failure_last outcomes (MAX_RETRIES - 1 - 1) 2 e
        (by decide) (by decide) (by decide) hke hre]
    rfl
  · intro o2 hagree
    unfold streamAnalysisModel
    rcases h0 : outcomes 0 with chunks0 | e0
    · have g0 : o2 0 = .success chunks0 := (hagree 0 (by decide)).symm.trans h0
      rw [streamLoop_success outcomes MAX_RETRIES 0 chunks0 (by decide) (by decide) h0,
        streamLoop_success o2 MAX_RETRIES 0 chunks0 (by decide) (by decide) g0]
    · have g0 : o2 0 = .failure e0 := (hagree 0 (by decide)).symm.trans h0
      cases hr0 : isRateLimit e0
      · rw [streamLoop_failure_stop outcomes MAX_RETRIES 0 e0 (by decide) (by decide) h0 hr0,
          streamLoop_failure_stop o2 MAX_RETRIES 0 e0 (by decide) (by decide) g0 hr0]
      · rw [streamLoop_failure_retry outcomes MAX_RETRIES 0 e0 (by decide) (by decide) h0 hr0,
          streamLoop_failure_retry o2 MAX_RETRIES 0 e0 (by decide) (by decide) g0 hr0]
        rcases h1 : outcomes 1 with chunks1 | e1
        · have g1 : o2 1 = .success chunks1 := (hagree 1 (by decide)).symm.trans h1
          rw [streamLoop_success outcomes (MAX_RETRIES - 1) 1 chunks1
              (by decide) (by decide) h1,
            streamLoop_success o2 (MAX_RETRIES - 1) 1 chunks1 (by decide) (by decide) g1]
        · have g1 : o2 1 = .failure e1 := (hagree 1 (by decide)).symm.trans h1
          cases hr1 : isRateLimit e1
          · rw [streamLoop_failure_stop outcomes (MAX_RETRIES - 1) 1 e1
                (by decide) (by decide) h1 hr1,
              streamLoop_failure_stop o2 (MAX_RETRIES - 1) 1 e1
                (by decide) (by decide) g1 hr1]
          · rw [streamLoop_failure_retry outcomes (MAX_RETRIES - 1) 1 e1
                (by decide) (by decide) h1 hr1,
              streamLoop_failure_retry o2 (MAX_RETRIES - 1) 1 e1
                (by decide) (by decide) g1 hr1]
            rcases h2 : outcomes 2 with chunks2 | e2
            · have g2 : o2 2 = .success chunks2 := (hagree 2 (by decide)).symm.trans h2
              rw [streamLoop_success outcomes (MAX_RETRIES - 1 - 1) 2 chunks2
                  (by decide) (by decide) h2,
                streamLoop_success o2 (MAX_RETRIES - 1 - 1) 2 chunks2
                  (by decide) (by decide) g2]
            · have g2 : o2 2 = .failure e2 := (hagree 2 (by decide)).symm.trans h2
              cases hr2 : isRateLimit e2
              · rw [streamLoop_failure_stop outcomes (MAX_RETRIES - 1 - 1) 2 e2
                    (by decide) (by decide) h2 hr2,
                  streamLoop_failure_stop o2 (MAX_RETRIES - 1 - 1) 2 e2
                    (by decide) (by decide) g2 hr2]
              · rw [streamLoop_failure_last outcomes (MAX_RETRIES - 1 - 1) 2 e2
                    (by decide) (by decide) (by decide) h2 hr2,
                  streamLoop_failure_last o2 (MAX_RETRIES - 1 - 1) 2 e2
                    (by decide) (by decide) (by decide) g2 hr2]

/-- Witness for C9 (amended): after an initial 429 failure, a 400 failure on
the second attempt is rethrown immediately, with only the first 5 s wait
performed and no further retry. -/
theorem retry_policy_amended_witness :
    (isRateLimit rateLimitErr = true ∧ isRateLimit badRequestErr = false) ∧
    streamAnalysisModel mixedOutcomes = ([5000], .error badRequestErr) :=
  ⟨⟨by decide, by decide⟩,
    (retry_policy_amended mixedOutcomes).2.1 1 (by decide)
      (fun j hj => by
        have hj0 : j = 0 := by omega
        subst hj0
        exact ⟨rateLimitErr, rfl, by decide⟩)
      badRequestErr rfl (by decide)⟩

end VeritasStream
